import Mathlib

/-!
A shallow embedding of `src/c/plytodsm.c` (the s2p "ply files to DSM"
accumulator) and proofs about it.

Modelling conventions:
* C `float`/`double` values are modelled as `ℚ` (exact arithmetic); the
  double-to-int conversion of C truncates toward zero and is modelled by
  `ratTrunc`.
* Files are modelled by their parsed content: a ply file is its list of
  classified header lines plus its flat stream of decoded scalar values
  (binary) or numeric tokens (ASCII); a tile's `plyextrema.txt` sidecar is
  `none` when `fopen` fails and otherwise the list of floats that
  `fscanf "%f %f %f %f"` can parse from it, in order.
* `while` loops whose body consumes input are written with an explicit
  fuel argument large enough to cover every iteration the C loop performs
  (the record loop runs at most `stream.length + 1` times whenever the
  header declares at least one property).
-/

namespace PlyToDsm

/-- C's conversion from a floating value to `int`: truncation toward zero. -/
def ratTrunc (q : ℚ) : ℤ := if 0 ≤ q then ⌊q⌋ else ⌈q⌉

/-- `rescale_float_to_int` (plytodsm.c:119-126): computes
`int r = w * (x - min)/(max - min)` and a validity flag that is set and then
cleared when `r < 0` or `r >= w`.  Returns `(r, flag)`. -/
def rescale_float_to_int (x mn mx : ℚ) (w : ℤ) : ℤ × Bool :=
  let r : ℤ := ratTrunc ((w : ℚ) * (x - mn) / (mx - mn))
  (r, decide (0 ≤ r) && decide (r < w))

/-- `struct images` (plytodsm.c:129-133): two flat `w*h` float buffers
(sample count and running average) plus the dimensions. -/
structure images where
  cnt : List ℚ
  avg : List ℚ
  w : ℕ
  h : ℕ
deriving DecidableEq

/-- `add_height_to_images` (plytodsm.c:136-141): at flat index
`k = w*j + i`, set `avg[k] = (v + cnt[k]*avg[k]) / (1 + cnt[k])`
and then increment `cnt[k]`. -/
def add_height_to_images (x : images) (i j : ℕ) (v : ℚ) : images :=
  let k := x.w * j + i
  { x with
    avg := x.avg.set k ((v + x.cnt.getD k 0 * x.avg.getD k 0) / (1 + x.cnt.getD k 0)),
    cnt := x.cnt.set k (x.cnt.getD k 0 + 1) }

/-- Fold a list of samples into one fixed cell, as the record loop of
`add_ply_points_to_images` does for points all mapping to cell `(i, j)`. -/
def accumulateSamples (x : images) (i j : ℕ) (l : List ℚ) : images :=
  l.foldl (fun g v => add_height_to_images g i j v) x

/-- Classification of one header line, as the string tests of
`header_get_record_length_and_utm_zone` (plytodsm.c:93-114) see it: one of
the two exact format strings, a line matched by `sscanf(buf, "property %s %s")`
(carrying whether the type token is `uchar`/`float`/`double`, in which case
`parse_property_line` records a 1/4/8-byte width), a
`comment projection: UTM <zone>` comment, the `end_header` sentinel, or
anything else. -/
inductive HeaderLine where
  | formatBinary
  | formatAscii
  | property (known : Bool)
  | projection (zone : String)
  | endHeader
  | other
deriving DecidableEq

/-- Result of the header scan: the parsed properties (`true` when the type
token was recognized), the `isbin` flag, and the content of the `utm`
buffer (`none` when it was never written). -/
structure HeaderResult where
  props : List Bool
  isbin : Bool
  utm : Option String
deriving DecidableEq

/-- The `while (fgets(...))` loop of `header_get_record_length_and_utm_zone`:
format lines set `isbin`, property lines are appended, a projection comment
overwrites the `utm` buffer, and the loop stops after `end_header` (or at
end of file). -/
def parseHeaderLoop : List HeaderLine → Bool → List Bool → Option String → HeaderResult
  | [], isbin, props, utm => ⟨props, isbin, utm⟩
  | line :: rest, isbin, props, utm =>
    match line with
    | .formatBinary => parseHeaderLoop rest true props utm
    | .formatAscii => parseHeaderLoop rest false props utm
    | .property known => parseHeaderLoop rest isbin (props ++ [known]) utm
    | .projection z => parseHeaderLoop rest isbin props (some z)
    | .endHeader => ⟨props, isbin, utm⟩
    | .other => parseHeaderLoop rest isbin props utm

/-- `header_get_record_length_and_utm_zone` (plytodsm.c:93-114).  The
function sets `*isbin = 0` before scanning, so a header without a format
line comes out as ASCII; `utm0` is whatever the caller's `utm` buffer held
before the call (it is only written by a projection comment). -/
def header_get_record_length_and_utm_zone (lines : List HeaderLine)
    (utm0 : Option String) : HeaderResult :=
  parseHeaderLoop lines false [] utm0

/-- The binary branch of `get_record` (plytodsm.c:145-164): one `fread` per
property in declared order; an unrecognized property type falls through the
`switch` and reads nothing.  The stream is the file's remaining sequence of
decoded scalars; a failed read leaves `data[i]` unassigned (modelled as 0)
and adds nothing to `rec`.  Returns `(rec, data, rest)`. -/
def readBinProps : List Bool → List ℚ → ℤ × List ℚ × List ℚ
  | [], s => (0, [], s)
  | false :: ps, s =>
    let r := readBinProps ps s
    (r.1, 0 :: r.2.1, r.2.2)
  | true :: ps, [] =>
    let r := readBinProps ps []
    (r.1, 0 :: r.2.1, r.2.2)
  | true :: ps, v :: s =>
    let r := readBinProps ps s
    (r.1 + 1, v :: r.2.1, r.2.2)

/-- The ASCII branch of `get_record` (plytodsm.c:166-169):
`while (i < n && !feof(f)) { rec += fscanf(f, "%lf", &data[i]); i++; }`.
`fscanf` returns 1 and consumes a token on success; on an exhausted token
stream it returns EOF = -1 and raises the end-of-file flag (`data[i]` is
left unassigned, modelled as 0).  Returns `(rec, data, eofAfter, rest)`. -/
def readAsciiProps : ℕ → Bool → List ℚ → ℤ × List ℚ × Bool × List ℚ
  | 0, eof, s => (0, [], eof, s)
  | _ + 1, true, s => (0, [], true, s)
  | k + 1, false, [] =>
    let r := readAsciiProps k true []
    (r.1 - 1, 0 :: r.2.1, r.2.2.1, r.2.2.2)
  | k + 1, false, v :: s =>
    let r := readAsciiProps k false s
    (r.1 + 1, v :: r.2.1, r.2.2.1, r.2.2.2)

/-- The record loop `while (n == get_record(...))` of
`add_ply_points_to_images`, binary case: collect the records for which
`get_record` returns exactly `n`.  `fuel` bounds the iterations;
`stream.length + 1` covers every iteration the C loop performs whenever the
header declares at least one property (with zero properties the C loop never
terminates, which the fuel does not model). -/
def binRecordLoop (props : List Bool) : ℕ → List ℚ → List (List ℚ)
  | 0, _ => []
  | fuel + 1, s =>
    let r := readBinProps props s
    if r.1 = (props.length : ℤ) then r.2.1 :: binRecordLoop props fuel r.2.2
    else []

/-- The complete records a binary file yields. -/
def binRecords (props : List Bool) (s : List ℚ) : List (List ℚ) :=
  binRecordLoop props (s.length + 1) s

/-- The record loop, ASCII case; the end-of-file flag persists across
`get_record` calls as part of the `FILE` state. -/
def asciiRecordLoop (n : ℕ) : ℕ → Bool → List ℚ → List (List ℚ)
  | 0, _, _ => []
  | fuel + 1, eof, s =>
    let r := readAsciiProps n eof s
    if r.1 = (n : ℤ) then r.2.1 :: asciiRecordLoop n fuel r.2.2.1 r.2.2.2
    else []

/-- The complete records an ASCII file yields. -/
def asciiRecords (n : ℕ) (s : List ℚ) : List (List ℚ) :=
  asciiRecordLoop n (s.length + 1) false s

/-- C's conversion of a floating value to `unsigned int`
(the `unsigned int rgb = data[col_idx]` line, defined for values in range):
truncation toward zero. -/
def uintOfRat (q : ℚ) : ℕ := (ratTrunc q).toNat

/-- The body of the record loop in `add_ply_points_to_images`
(plytodsm.c:199-215): map `data[0]` against `(xmin, xmax, w)` and `-data[1]`
against `(-ymax, -ymin, h)`; when both validity flags hold, accumulate
`data[2]` (for `col_idx == 2`) or the `unsigned int` conversion of
`data[col_idx]` (otherwise); when either flag fails, the point is dropped
with no effect. -/
def processRecord (xmin xmax ymin ymax : ℚ) (col_idx : ℤ) (x : images)
    (data : List ℚ) : images :=
  let r1 := rescale_float_to_int (data.getD 0 0) xmin xmax (x.w : ℤ)
  let r2 := rescale_float_to_int (-(data.getD 1 0)) (-ymax) (-ymin) (x.h : ℤ)
  if r1.2 && r2.2 then
    if col_idx = 2 then
      add_height_to_images x r1.1.toNat r2.1.toNat (data.getD 2 0)
    else
      add_height_to_images x r1.1.toNat r2.1.toNat
        ((uintOfRat (data.getD col_idx.toNat 0) : ℚ))
  else x

/-- The content of one `cloud.ply` file: its classified header lines and its
flat stream of decoded scalar values (binary) or numeric tokens (ASCII). -/
structure PlyData where
  header : List HeaderLine
  stream : List ℚ
deriving DecidableEq

/-- `add_ply_points_to_images` (plytodsm.c:176-219) for an openable file:
parse the header (the comparison of the file's zone with the run's zone only
prints a warning and is not modelled further), `exit` the whole process with
a positive status when `col_idx` is outside `[2,5]`, and otherwise fold
every complete record into the grid. -/
def add_ply_points_to_images (xmin xmax ymin ymax : ℚ) (col_idx : ℤ)
    (x : images) (p : PlyData) : Except Unit images :=
  let hr := header_get_record_length_and_utm_zone p.header none
  if col_idx < 2 ∨ 5 < col_idx then .error ()
  else
    let recs := if hr.isbin then binRecords hr.props p.stream
      else asciiRecords hr.props.length p.stream
    .ok (recs.foldl (fun g d => processRecord xmin xmax ymin ymax col_idx g d) x)

/-- The four floats scanned from a tile's `plyextrema.txt`
(`local_xmin local_xmax local_ymin local_ymax`); these C locals persist
across loop iterations of `main`, so unparsed fields keep their previous
values. -/
structure Extrema where
  exmin : ℚ
  exmax : ℚ
  eymin : ℚ
  eymax : ℚ
deriving DecidableEq

/-- `fscanf(f, "%f %f %f %f", ...)` on a sidecar whose parseable float
prefix is `xs`: the four variables are assigned in order while tokens
parse; the rest keep their old values.  The caller never checks the
`fscanf` return value. -/
def scanExtrema (old : Extrema) (xs : List ℚ) : Extrema :=
  ⟨xs.getD 0 old.exmin, xs.getD 1 old.exmax, xs.getD 2 old.eymin, xs.getD 3 old.eymax⟩

/-- One tile directory from the tile list: its `plyextrema.txt` sidecar
(`none` when `fopen` fails, otherwise the floats `fscanf` can parse from
it) and its `cloud.ply` (`none` when `fopen` fails). -/
structure Tile where
  sidecar : Option (List ℚ)
  ply : Option PlyData
deriving DecidableEq

/-- State threaded through the tile loop of `main` (plytodsm.c:268-312): the
persistent `local_*` extrema, the persistent `utm` buffer, and the list `l`
of selected ply files.

Modelled from the spec: `lists.c` (the `push` operation and the traversal of
`l`) is included by plytodsm.c but is not under `src/`; per §4.2 of the spec
the ingestion order of the selected files matches the order the tiles appear
in the input list, so selection appends at the back. -/
structure SelState where
  extrema : Extrema
  utm : Option String
  sel : List PlyData
deriving DecidableEq

/-- One iteration of the tile loop of `main`: when the sidecar cannot be
opened, warn and skip the tile; otherwise scan the extrema (return value
unchecked) and, when the scanned rectangle intersects the target box
(inclusive comparisons), open `cloud.ply` (warn and skip on failure), push
it onto the list, and parse its header — which rewrites the shared `utm`
buffer whenever the file carries a projection comment. -/
def selectStep (xmin xmax ymin ymax : ℚ) (s : SelState) (tile : Tile) : SelState :=
  match tile.sidecar with
  | none => s
  | some xs =>
    let e := scanExtrema s.extrema xs
    if e.exmin ≤ xmax ∧ e.exmax ≥ xmin ∧ e.eymin ≤ ymax ∧ e.eymax ≥ ymin then
      match tile.ply with
      | none => { s with extrema := e }
      | some p =>
        let hr := header_get_record_length_and_utm_zone p.header s.utm
        { extrema := e, utm := hr.utm, sel := s.sel ++ [p] }
    else { s with extrema := e }

/-- The whole tile loop of `main`, from the initial (uninitialized) values
of the `local_*` and `utm` locals. -/
def selectTiles (xmin xmax ymin ymax : ℚ) (e0 : Extrema) (u0 : Option String)
    (tiles : List Tile) : SelState :=
  tiles.foldl (selectStep xmin xmax ymin ymax) ⟨e0, u0, []⟩

/-- Outcome of a run of `main`: non-zero exit for an unreadable tile list
(`return 1`) or a bad channel (`exit(fprintf(...))`, a positive count of
printed characters), both before any raster is written; or exit 0 with the
finalized raster (a cell is `none` exactly when its sample count is zero and
the C code writes the NaN no-data sentinel), the dimensions, and the zone
handed to `set_geotif_header`.  `notModelled` marks configurations whose C
behavior (float division by zero, `xmalloc` overflow) is outside this
embedding. -/
inductive RunResult where
  | listError
  | badChannel
  | notModelled
  | success (raster : List (Option ℚ)) (w h : ℕ) (zone : Option String)
deriving DecidableEq

/-- The NaN finalization loop of `main` (plytodsm.c:346-348). -/
def finalizeRaster (x : images) : List (Option ℚ) :=
  (List.range (x.w * x.h)).map fun k =>
    if x.cnt.getD k 0 = 0 then none else some (x.avg.getD k 0)

/-- `main` (plytodsm.c:231-358) for a well-formed command line (`argc == 8`,
so the usage branch is not taken): `col_idx` from the `-c` option (default
2), the six numeric arguments, the tile list content (`none` when
`fopen(v[3])` fails, which returns 1), and the junk values of the
uninitialized locals `local_*` and `utm`.  Select tiles, compute
`w = (int)(1 + (xmax - xmin)/resolution)` (likewise `h`), allocate the
zero-filled grid, ingest every selected file (a bad `col_idx` exits there,
before any output exists), replace zero-count cells by NaN, and hand raster
and `utm` to the writers, returning 0. -/
def mainModel (col_idx : ℤ) (resolution xmin xmax ymin ymax : ℚ)
    (tiles : Option (List Tile)) (e0 : Extrema) (u0 : Option String) : RunResult :=
  match tiles with
  | none => .listError
  | some ts =>
    let st := selectTiles xmin xmax ymin ymax e0 u0 ts
    let w : ℤ := ratTrunc (1 + (xmax - xmin) / resolution)
    let h : ℤ := ratTrunc (1 + (ymax - ymin) / resolution)
    if resolution = 0 ∨ w ≤ 0 ∨ h ≤ 0 then .notModelled
    else
      let x0 : images :=
        ⟨List.replicate (w.toNat * h.toNat) 0, List.replicate (w.toNat * h.toNat) 0,
          w.toNat, h.toNat⟩
      match st.sel.foldlM
          (fun g p => add_ply_points_to_images xmin xmax ymin ymax col_idx g p) x0 with
      | .error _ => .badChannel
      | .ok x => .success (finalizeRaster x) x.w x.h st.utm

/-- Did the run exit with status 0 and write a raster? -/
def RunResult.isSuccess : RunResult → Bool
  | .success _ _ _ _ => true
  | _ => false

/-- The written raster cell at flat index `k` (only a successful run has
cells). -/
def RunResult.cell : RunResult → ℕ → Option ℚ
  | .success r _ _ _, k => r.getD k none
  | _, _ => none

/-- Test fixture: an ASCII ply file with three recognized properties holding
the spec's two example points `(2.5, 2.5, 5.0)` and `(2.6, 2.6, 7.0)`. -/
def examplePly : PlyData :=
  ⟨[.formatAscii, .property true, .property true, .property true, .endHeader],
    [5 / 2, 5 / 2, 5, 13 / 5, 13 / 5, 7]⟩

/-- Test fixture: a tile whose sidecar declares extent `0 10 0 10` and whose
ply file is `examplePly`. -/
def exampleTile : Tile := ⟨some [0, 10, 0, 10], some examplePly⟩

/-- Test fixture: a tile whose sidecar file exists but yields no parseable
float at all (a malformed sidecar), with a one-point three-property ASCII
ply file. -/
def malformedSidecarTile : Tile :=
  ⟨some [], some ⟨[.property true, .property true, .property true, .endHeader],
    [5 / 2, 5 / 2, 5]⟩⟩

/-- Test fixture: an empty ply file declaring one property and a projection
zone comment. -/
def plyWithZone (z : String) : PlyData :=
  ⟨[.property true, .projection z, .endHeader], []⟩

-- basic getD/set facts used throughout

theorem getD_set_self (l : List ℚ) (k : ℕ) (a d : ℚ) (h : k < l.length) :
    (l.set k a).getD k d = a := by
  simp [List.getD_eq_getElem?_getD, List.getElem?_set_eq_of_lt a h]

theorem getD_set_ne (l : List ℚ) (k k' : ℕ) (a d : ℚ) (h : k ≠ k') :
    (l.set k a).getD k' d = l.getD k' d := by
  simp [List.getD_eq_getElem?_getD, List.getElem?_set_ne h]

theorem getD_replicate (n k : ℕ) (a d : ℚ) (h : k < n) :
    (List.replicate n a).getD k d = a := by
  induction n generalizing k with
  | zero => omega
  | succ m ih =>
    cases k with
    | zero => rfl
    | succ k' => exact ih k' (by omega)

theorem ratTrunc_nonneg_eq (q : ℚ) (z : ℤ) (hz : 0 ≤ z) (h1 : (z : ℚ) ≤ q)
    (h2 : q < z + 1) : ratTrunc q = z := by
  have h0 : 0 ≤ q := le_trans (by exact_mod_cast hz) h1
  rw [ratTrunc, if_pos h0]
  exact Int.floor_eq_iff.mpr ⟨h1, by exact_mod_cast h2⟩

theorem ratTrunc_neg_eq (q : ℚ) (z : ℤ) (hq : q < 0) (h1 : (z : ℚ) - 1 < q)
    (h2 : q ≤ z) : ratTrunc q = z := by
  rw [ratTrunc, if_neg (not_le.mpr hq)]
  exact Int.ceil_eq_iff.mpr ⟨h1, h2⟩

theorem rescale_eval (x mn mx : ℚ) (w z : ℤ)
    (h : ratTrunc ((w : ℚ) * (x - mn) / (mx - mn)) = z) :
    rescale_float_to_int x mn mx w
      = (z, decide (0 ≤ z) && decide (z < w)) := by
  simp only [rescale_float_to_int, h]

theorem add_height_cnt_len (x : images) (i j : ℕ) (v : ℚ) :
    (add_height_to_images x i j v).cnt.length = x.cnt.length := by
  simp [add_height_to_images]

theorem add_height_avg_len (x : images) (i j : ℕ) (v : ℚ) :
    (add_height_to_images x i j v).avg.length = x.avg.length := by
  simp [add_height_to_images]

/-- Invariant of the incremental-mean update, folded over a list of samples:
the count increases by the length, and (in multiplied form, to avoid the
empty case) the product of the new average with the new count equals the old
weighted sum plus the sum of the samples. -/
theorem accumulateSamples_invariant (l : List ℚ) (x : images) (i j k : ℕ)
    (hk : k = x.w * j + i)
    (hk1 : k < x.cnt.length) (hk2 : k < x.avg.length)
    (hc : 0 ≤ x.cnt.getD k 0) :
    (accumulateSamples x i j l).cnt.getD k 0 = x.cnt.getD k 0 + l.length ∧
      (accumulateSamples x i j l).avg.getD k 0 * (x.cnt.getD k 0 + l.length)
        = x.cnt.getD k 0 * x.avg.getD k 0 + l.sum := by
  induction l generalizing x with
  | nil =>
    constructor
    · simp [accumulateSamples]
    · simp only [accumulateSamples, List.foldl_nil, List.length_nil,
        Nat.cast_zero, add_zero, List.sum_nil]
      ring
  | cons v t ih =>
    have hlen1 : k < (add_height_to_images x i j v).cnt.length := by
      rwa [add_height_cnt_len]
    have hlen2 : k < (add_height_to_images x i j v).avg.length := by
      rwa [add_height_avg_len]
    have hcnt' : (add_height_to_images x i j v).cnt.getD k 0
        = x.cnt.getD k 0 + 1 := by
      simp only [add_height_to_images, ← hk]
      exact getD_set_self _ _ _ _ hk1
    have havg' : (add_height_to_images x i j v).avg.getD k 0
        = (v + x.cnt.getD k 0 * x.avg.getD k 0) / (1 + x.cnt.getD k 0) := by
      simp only [add_height_to_images, ← hk]
      exact getD_set_self _ _ _ _ hk2
    have hc' : 0 ≤ (add_height_to_images x i j v).cnt.getD k 0 := by
      rw [hcnt']; linarith
    obtain ⟨ih1, ih2⟩ := ih (add_height_to_images x i j v) hk hlen1 hlen2 hc'
    rw [hcnt'] at ih1 ih2
    rw [havg'] at ih2
    have hne : (1 : ℚ) + x.cnt.getD k 0 ≠ 0 := by positivity
    have hstep : accumulateSamples x i j (v :: t)
        = accumulateSamples (add_height_to_images x i j v) i j t := rfl
    constructor
    · rw [hstep, ih1]
      simp only [List.length_cons]
      push_cast
      ring
    · rw [hstep]
      simp only [List.length_cons, List.sum_cons]
      have hcancel : (v + x.cnt.getD k 0 * x.avg.getD k 0) / (1 + x.cnt.getD k 0)
            * (1 + x.cnt.getD k 0) = v + x.cnt.getD k 0 * x.avg.getD k 0 :=
        div_mul_cancel₀ _ hne
      push_cast at ih2 ⊢
      calc (accumulateSamples (add_height_to_images x i j v) i j t).avg.getD k 0
            * (x.cnt.getD k 0 + ((t.length : ℚ) + 1))
          = (accumulateSamples (add_height_to_images x i j v) i j t).avg.getD k 0
            * (x.cnt.getD k 0 + 1 + (t.length : ℚ)) := by ring
        _ = (x.cnt.getD k 0 + 1)
              * ((v + x.cnt.getD k 0 * x.avg.getD k 0) / (1 + x.cnt.getD k 0))
              + t.sum := ih2
        _ = ((v + x.cnt.getD k 0 * x.avg.getD k 0) / (1 + x.cnt.getD k 0))
              * (1 + x.cnt.getD k 0) + t.sum := by ring
        _ = v + x.cnt.getD k 0 * x.avg.getD k 0 + t.sum := by rw [hcancel]
        _ = x.cnt.getD k 0 * x.avg.getD k 0 + (v + t.sum) := by ring

theorem accumulateSamples_cnt_len (l : List ℚ) (x : images) (i j : ℕ) :
    (accumulateSamples x i j l).cnt.length = x.cnt.length := by
  induction l generalizing x with
  | nil => rfl
  | cons v t ih =>
    have : accumulateSamples x i j (v :: t)
        = accumulateSamples (add_height_to_images x i j v) i j t := rfl
    rw [this, ih, add_height_cnt_len]

theorem accumulateSamples_avg_len (l : List ℚ) (x : images) (i j : ℕ) :
    (accumulateSamples x i j l).avg.length = x.avg.length := by
  induction l generalizing x with
  | nil => rfl
  | cons v t ih =>
    have : accumulateSamples x i j (v :: t)
        = accumulateSamples (add_height_to_images x i j v) i j t := rfl
    rw [this, ih, add_height_avg_len]

/-- Frame property of the sample fold: any flat index other than `w*j + i`
keeps its count and average. -/
theorem accumulateSamples_getD_ne (l : List ℚ) (x : images) (i j m : ℕ)
    (hm : m ≠ x.w * j + i) :
    (accumulateSamples x i j l).cnt.getD m 0 = x.cnt.getD m 0 ∧
      (accumulateSamples x i j l).avg.getD m 0 = x.avg.getD m 0 := by
  induction l generalizing x with
  | nil => exact ⟨rfl, rfl⟩
  | cons v t ih =>
    have hstep : accumulateSamples x i j (v :: t)
        = accumulateSamples (add_height_to_images x i j v) i j t := rfl
    have hm' : m ≠ (add_height_to_images x i j v).w * j + i := hm
    obtain ⟨h1, h2⟩ := ih (add_height_to_images x i j v) hm'
    refine ⟨?_, ?_⟩
    · rw [hstep, h1]
      simp only [add_height_to_images]
      exact getD_set_ne _ _ _ _ _ (Ne.symm hm)
    · rw [hstep, h2]
      simp only [add_height_to_images]
      exact getD_set_ne _ _ _ _ _ (Ne.symm hm)

/-- A record whose two mappings are both valid and whose channel is the
height channel is accumulated at the truncated cell indices. -/
theorem processRecord_eval_height (xmin xmax ymin ymax : ℚ) (x : images)
    (data : List ℚ) (i j : ℤ)
    (h1 : rescale_float_to_int (data.getD 0 0) xmin xmax (x.w : ℤ) = (i, true))
    (h2 : rescale_float_to_int (-(data.getD 1 0)) (-ymax) (-ymin) (x.h : ℤ)
      = (j, true)) :
    processRecord xmin xmax ymin ymax 2 x data
      = add_height_to_images x i.toNat j.toNat (data.getD 2 0) := by
  simp only [processRecord, h1, h2, Bool.and_self, if_true]

/-- A record either of whose mappings is invalid is dropped: the grid is
unchanged. -/
theorem processRecord_drop (xmin xmax ymin ymax : ℚ) (col_idx : ℤ)
    (x : images) (data : List ℚ)
    (h : (rescale_float_to_int (data.getD 0 0) xmin xmax (x.w : ℤ)).2 = false ∨
      (rescale_float_to_int (-(data.getD 1 0)) (-ymax) (-ymin) (x.h : ℤ)).2
        = false) :
    processRecord xmin xmax ymin ymax col_idx x data = x := by
  simp only [processRecord]
  rcases h with h | h
  · rw [h]
    simp
  · rw [h]
    simp

theorem add_height_getD_self (x : images) (i j : ℕ) (v : ℚ)
    (h1 : x.w * j + i < x.cnt.length) (h2 : x.w * j + i < x.avg.length) :
    (add_height_to_images x i j v).cnt.getD (x.w * j + i) 0
        = x.cnt.getD (x.w * j + i) 0 + 1 ∧
      (add_height_to_images x i j v).avg.getD (x.w * j + i) 0
        = (v + x.cnt.getD (x.w * j + i) 0 * x.avg.getD (x.w * j + i) 0)
            / (1 + x.cnt.getD (x.w * j + i) 0) := by
  constructor
  · simp only [add_height_to_images]
    exact getD_set_self _ _ _ _ h1
  · simp only [add_height_to_images]
    exact getD_set_self _ _ _ _ h2

theorem finalizeRaster_length (x : images) :
    (finalizeRaster x).length = x.w * x.h := by
  simp [finalizeRaster]

theorem finalizeRaster_getElem (x : images) (k : ℕ) (hk : k < (finalizeRaster x).length) :
    (finalizeRaster x)[k]
      = if x.cnt.getD k 0 = 0 then none else some (x.avg.getD k 0) := by
  simp [finalizeRaster]

/-- C1: accumulating N sample values into a grid cell via the incremental-mean
update of `add_height_to_images`, starting from sample count 0, yields the
arithmetic mean of the N values, independently of the insertion order. -/
theorem claim_C1_incremental_mean_is_arithmetic_mean
    (x : images) (i j : ℕ) (l l' : List ℚ)
    (hk1 : x.w * j + i < x.cnt.length) (hk2 : x.w * j + i < x.avg.length)
    (h0 : x.cnt.getD (x.w * j + i) 0 = 0) (hl : l ≠ []) :
    (accumulateSamples x i j l).avg.getD (x.w * j + i) 0 = l.sum / l.length ∧
      (l.Perm l' →
        (accumulateSamples x i j l').avg.getD (x.w * j + i) 0
          = (accumulateSamples x i j l).avg.getD (x.w * j + i) 0) := by
  have key : ∀ m : List ℚ, m ≠ [] →
      (accumulateSamples x i j m).avg.getD (x.w * j + i) 0 = m.sum / m.length := by
    intro m hm
    obtain ⟨-, h2⟩ := accumulateSamples_invariant m x i j (x.w * j + i) rfl hk1 hk2
      (by rw [h0])
    rw [h0] at h2
    have hpos : 0 < m.length := List.length_pos.mpr hm
    have hlen : ((m.length : ℚ)) ≠ 0 := by
      exact_mod_cast Nat.pos_iff_ne_zero.mp hpos
    rw [eq_div_iff hlen]
    calc (accumulateSamples x i j m).avg.getD (x.w * j + i) 0 * (m.length : ℚ)
        = (accumulateSamples x i j m).avg.getD (x.w * j + i) 0
            * (0 + (m.length : ℚ)) := by ring
      _ = 0 * x.avg.getD (x.w * j + i) 0 + m.sum := h2
      _ = m.sum := by ring
  refine ⟨key l hl, fun hperm => ?_⟩
  have hl' : l' ≠ [] := by
    intro h
    exact hl (List.Perm.eq_nil (h ▸ hperm))
  rw [key l hl, key l' hl', hperm.sum_eq, hperm.length_eq]

theorem claim_C1_witness :
    (accumulateSamples ⟨[0, 0], [0, 0], 2, 1⟩ 0 0 [5, 7]).avg.getD 0 0
        = ([5, 7] : List ℚ).sum / (([5, 7] : List ℚ).length : ℚ) ∧
      (accumulateSamples ⟨[0, 0], [0, 0], 2, 1⟩ 0 0 [7, 5]).avg.getD 0 0
        = (accumulateSamples ⟨[0, 0], [0, 0], 2, 1⟩ 0 0 [5, 7]).avg.getD 0 0 := by
  have h := claim_C1_incremental_mean_is_arithmetic_mean
    ⟨[0, 0], [0, 0], 2, 1⟩ 0 0 [5, 7] [7, 5]
    (by decide) (by decide) (by decide) (by decide)
  exact ⟨h.1, h.2 (by decide)⟩

/-- C10: `add_height_to_images` at an in-range cell `(i, j)` changes only the
running-average and sample-count entries at flat index `w*j + i`; every other
flat index keeps its average and count, and the dimensions are unchanged. -/
theorem claim_C10_accumulate_frame (x : images) (i j l : ℕ) (v : ℚ)
    (hi : i < x.w) (hj : j < x.h) (hl : l ≠ x.w * j + i) :
    (add_height_to_images x i j v).avg.getD l 0 = x.avg.getD l 0 ∧
      (add_height_to_images x i j v).cnt.getD l 0 = x.cnt.getD l 0 ∧
      (add_height_to_images x i j v).w = x.w ∧
      (add_height_to_images x i j v).h = x.h := by
  refine ⟨?_, ?_, rfl, rfl⟩
  · simp only [add_height_to_images]
    exact getD_set_ne _ _ _ _ _ (Ne.symm hl)
  · simp only [add_height_to_images]
    exact getD_set_ne _ _ _ _ _ (Ne.symm hl)

theorem claim_C10_witness :
    (add_height_to_images ⟨[0, 0], [0, 0], 2, 1⟩ 0 0 3).avg.getD 1 0
        = (⟨[0, 0], [0, 0], 2, 1⟩ : images).avg.getD 1 0 ∧
      (add_height_to_images ⟨[0, 0], [0, 0], 2, 1⟩ 0 0 3).cnt.getD 1 0
        = (⟨[0, 0], [0, 0], 2, 1⟩ : images).cnt.getD 1 0 ∧
      (add_height_to_images ⟨[0, 0], [0, 0], 2, 1⟩ 0 0 3).w = 2 ∧
      (add_height_to_images ⟨[0, 0], [0, 0], 2, 1⟩ 0 0 3).h = 1 :=
  claim_C10_accumulate_frame ⟨[0, 0], [0, 0], 2, 1⟩ 0 0 1 3
    (by decide) (by decide) (by decide)

/-- C2 counterexample: the claim says the column is
`floor(w * (worldX - xmin) / (xmax - xmin))` and the mapping is valid iff
`0 ≤ col < w`.  At `worldX = -1/2`, `xmin = 0`, `xmax = 10`, `w = 10`, that
floor is `-1` (so the claim calls the point invalid and discarded), but the
code truncates toward zero: it returns column `0` with the valid flag set. -/
theorem claim_C2_counterexample :
    (rescale_float_to_int (-(1 / 2)) 0 10 10).2 = true ∧
      ⌊(10 : ℚ) * (-(1 / 2) - 0) / (10 - 0)⌋ = -1 ∧
      (rescale_float_to_int (-(1 / 2)) 0 10 10).1
        ≠ ⌊(10 : ℚ) * (-(1 / 2) - 0) / (10 - 0)⌋ := by
  have hq : ((10 : ℚ) * (-(1 / 2) - 0) / (10 - 0)) = -(1 / 2) := by norm_num
  have ht : ratTrunc ((10 : ℚ) * (-(1 / 2) - 0) / (10 - 0)) = 0 := by
    rw [hq]
    exact ratTrunc_neg_eq _ 0 (by norm_num) (by norm_num) (by norm_num)
  have hr := rescale_eval (-(1 / 2)) 0 10 10 0 ht
  have hf : ⌊(10 : ℚ) * (-(1 / 2) - 0) / (10 - 0)⌋ = -1 := by
    rw [hq]
    exact Int.floor_eq_iff.mpr ⟨by norm_num, by norm_num⟩
  refine ⟨?_, hf, ?_⟩
  · rw [hr]
    rfl
  · rw [hr, hf]
    decide

/-- C2 (amended): the horizontal cell mapping returns
`col = trunc(w * (worldX - xmin) / (xmax - xmin))` (C truncation toward
zero, not floor) and reports validity iff `0 ≤ col < w` (symmetrically for
the flipped vertical mapping); a record for which either mapping is invalid
is silently discarded: the grid is left unchanged. -/
theorem claim_C2_amended_mapping (x mn mx : ℚ) (w : ℤ)
    (xmin xmax ymin ymax : ℚ) (col_idx : ℤ) (g : images) (data : List ℚ)
    (hdrop : (rescale_float_to_int (data.getD 0 0) xmin xmax (g.w : ℤ)).2 = false ∨
      (rescale_float_to_int (-(data.getD 1 0)) (-ymax) (-ymin) (g.h : ℤ)).2 = false) :
    (rescale_float_to_int x mn mx w).1 = ratTrunc ((w : ℚ) * (x - mn) / (mx - mn)) ∧
      ((rescale_float_to_int x mn mx w).2 = true ↔
        0 ≤ (rescale_float_to_int x mn mx w).1 ∧
          (rescale_float_to_int x mn mx w).1 < w) ∧
      processRecord xmin xmax ymin ymax col_idx g data = g := by
  refine ⟨rfl, ?_, ?_⟩
  · simp [rescale_float_to_int]
  · exact processRecord_drop xmin xmax ymin ymax col_idx g data hdrop

theorem claim_C2_witness :
    ((rescale_float_to_int 1 0 10 10).1
        = ratTrunc ((10 : ℚ) * (1 - 0) / (10 - 0)) ∧
      ((rescale_float_to_int 1 0 10 10).2 = true ↔
        0 ≤ (rescale_float_to_int 1 0 10 10).1 ∧
          (rescale_float_to_int 1 0 10 10).1 < 10) ∧
      processRecord 0 10 0 10 2 ⟨[0], [0], 1, 1⟩ [20, 5, 1]
        = (⟨[0], [0], 1, 1⟩ : images)) :=
  claim_C2_amended_mapping 1 0 10 10 0 10 0 10 2 ⟨[0], [0], 1, 1⟩ [20, 5, 1]
    (Or.inl (by
      have ht : ratTrunc ((((⟨[0], [0], 1, 1⟩ : images).w : ℤ) : ℚ)
          * (([20, 5, 1] : List ℚ).getD 0 0 - 0) / (10 - 0)) = 2 := by
        apply ratTrunc_nonneg_eq _ 2 (by norm_num) <;> norm_num
      rw [rescale_eval _ _ _ _ 2 ht]
      rfl))

/-- C4 counterexample: a header with no format declaration line.  The claim
says the encoding then defaults to binary, but
`header_get_record_length_and_utm_zone` sets `*isbin = 0` before scanning,
so the encoding comes out as ASCII (`isbin = false`). -/
theorem claim_C4_counterexample :
    (header_get_record_length_and_utm_zone
        [HeaderLine.property true, HeaderLine.endHeader] none).isbin = false := by
  rfl

theorem parseHeaderLoop_isbin_of_no_format (lines : List HeaderLine)
    (h : ∀ l ∈ lines, l ≠ HeaderLine.formatBinary ∧ l ≠ HeaderLine.formatAscii)
    (b : Bool) (props : List Bool) (utm : Option String) :
    (parseHeaderLoop lines b props utm).isbin = b := by
  induction lines generalizing b props utm with
  | nil => rfl
  | cons l rest ih =>
    have hl := h l (List.mem_cons_self l rest)
    have hr : ∀ x ∈ rest, x ≠ HeaderLine.formatBinary ∧ x ≠ HeaderLine.formatAscii :=
      fun x hx => h x (List.mem_cons_of_mem l hx)
    cases l with
    | formatBinary => exact absurd rfl hl.1
    | formatAscii => exact absurd rfl hl.2
    | property known => exact ih hr b (props ++ [known]) utm
    | projection z => exact ih hr b props (some z)
    | endHeader => rfl
    | other => exact ih hr b props utm

/-- C4 (amended): the parser recognizes the `binary_little_endian 1.0` and
`ascii 1.0` format lines to set the record encoding, and when neither format
line is present the encoding defaults to ASCII (not binary). -/
theorem claim_C4_amended_default_ascii (lines rest : List HeaderLine) :
    ((∀ l ∈ lines, l ≠ HeaderLine.formatBinary ∧ l ≠ HeaderLine.formatAscii) →
        (header_get_record_length_and_utm_zone lines none).isbin = false) ∧
      ((∀ l ∈ rest, l ≠ HeaderLine.formatBinary ∧ l ≠ HeaderLine.formatAscii) →
        (header_get_record_length_and_utm_zone
          (HeaderLine.formatBinary :: rest) none).isbin = true) ∧
      ((∀ l ∈ rest, l ≠ HeaderLine.formatBinary ∧ l ≠ HeaderLine.formatAscii) →
        (header_get_record_length_and_utm_zone
          (HeaderLine.formatAscii :: rest) none).isbin = false) := by
  refine ⟨fun h => ?_, fun h => ?_, fun h => ?_⟩
  · exact parseHeaderLoop_isbin_of_no_format lines h false [] none
  · exact parseHeaderLoop_isbin_of_no_format rest h true [] none
  · exact parseHeaderLoop_isbin_of_no_format rest h false [] none

theorem claim_C4_witness :
    (header_get_record_length_and_utm_zone
        [HeaderLine.property true, HeaderLine.endHeader] none).isbin = false ∧
      (header_get_record_length_and_utm_zone
        (HeaderLine.formatBinary :: [HeaderLine.endHeader]) none).isbin = true ∧
      (header_get_record_length_and_utm_zone
        (HeaderLine.formatAscii :: [HeaderLine.endHeader]) none).isbin = false := by
  have h := claim_C4_amended_default_ascii
    [HeaderLine.property true, HeaderLine.endHeader] [HeaderLine.endHeader]
  exact ⟨h.1 (by decide), h.2.1 (by decide), h.2.2 (by decide)⟩

/-- C6 counterexample: a degenerate bounding box (`xmin = xmax = 5`) with
resolution 1 and a readable (empty) tile list.  The claim says the run
cannot proceed past Init and exits non-zero with no output; in fact `main`
performs no validation, runs to completion with exit status 0, and writes a
raster. -/
theorem claim_C6_counterexample :
    (mainModel 2 1 5 5 0 10 (some []) ⟨0, 0, 0, 0⟩ none).isSuccess = true := by
  have hw : ratTrunc (1 + ((5 : ℚ) - 5) / 1) = 1 :=
    ratTrunc_nonneg_eq _ 1 (by norm_num) (by norm_num) (by norm_num)
  have hh : ratTrunc (1 + ((10 : ℚ) - 0) / 1) = 11 :=
    ratTrunc_nonneg_eq _ 11 (by norm_num) (by norm_num) (by norm_num)
  simp only [mainModel, selectTiles, List.foldl_nil, hw, hh]
  rw [if_neg (by norm_num)]
  rfl

/-- C6 (amended): initialization performs no bounding-box or resolution
validation.  With a fully degenerate bounding box (`xmin = xmax` and
`ymin = ymax`, any value) and resolution 1, the run proceeds past Init,
completes with exit status 0, and writes a 1-by-1 all-NaN raster. -/
theorem claim_C6_amended_no_validation (a : ℚ) :
    mainModel 2 1 a a a a (some []) ⟨0, 0, 0, 0⟩ none
      = RunResult.success [none] 1 1 none := by
  have hw : ratTrunc (1 + (a - a) / 1) = 1 := by
    rw [sub_self]
    exact ratTrunc_nonneg_eq _ 1 (by norm_num) (by norm_num) (by norm_num)
  simp only [mainModel, selectTiles, List.foldl_nil, hw]
  rw [if_neg (by norm_num)]
  rfl

theorem selectStep_selected (xmin xmax ymin ymax : ℚ) (s : SelState)
    (xs : List ℚ) (p : PlyData)
    (hcond : (scanExtrema s.extrema xs).exmin ≤ xmax ∧
      (scanExtrema s.extrema xs).exmax ≥ xmin ∧
      (scanExtrema s.extrema xs).eymin ≤ ymax ∧
      (scanExtrema s.extrema xs).eymax ≥ ymin) :
    selectStep xmin xmax ymin ymax s ⟨some xs, some p⟩
      = ⟨scanExtrema s.extrema xs,
          (header_get_record_length_and_utm_zone p.header s.utm).utm,
          s.sel ++ [p]⟩ := by
  simp only [selectStep]
  rw [if_pos hcond]

theorem selectStep_missing_sidecar (xmin xmax ymin ymax : ℚ) (s : SelState)
    (p : Option PlyData) :
    selectStep xmin xmax ymin ymax s ⟨none, p⟩ = s := rfl

/-- A bad channel index makes `add_ply_points_to_images` call `exit`
whatever the grid and file contents are. -/
theorem add_ply_points_badChannel (xmin xmax ymin ymax : ℚ) (col_idx : ℤ)
    (hcol : col_idx < 2 ∨ 5 < col_idx) (x : images) (p : PlyData) :
    add_ply_points_to_images xmin xmax ymin ymax col_idx x p
      = Except.error () := by
  simp only [add_ply_points_to_images]
  rw [if_pos hcol]

/-- C8 counterexample: channel 7 (outside `[2,5]`) with a readable but empty
tile list.  The claim says such a run always exits non-zero with no output;
in fact the channel check sits inside `add_ply_points_to_images`, which is
never called when no tile is selected, so the run completes with exit 0 and
writes an all-NaN raster. -/
theorem claim_C8_counterexample :
    (mainModel 7 1 0 1 0 1 (some []) ⟨0, 0, 0, 0⟩ none).isSuccess = true := by
  have hw : ratTrunc (1 + ((1 : ℚ) - 0) / 1) = 2 :=
    ratTrunc_nonneg_eq _ 2 (by norm_num) (by norm_num) (by norm_num)
  simp only [mainModel, selectTiles, List.foldl_nil, hw]
  rw [if_neg (by norm_num)]
  rfl

/-- C8 (amended): a channel outside `[2,5]` is fatal — positive exit status
from `exit(fprintf(...))` before any raster is written — exactly when at
least one selected ply file is opened for ingestion; the check lives in
`add_ply_points_to_images` and is unreachable otherwise. -/
theorem claim_C8_amended_badChannel_needs_selected_file (col_idx : ℤ)
    (res xmin xmax ymin ymax : ℚ) (ts : List Tile) (e0 : Extrema)
    (u0 : Option String)
    (hcol : col_idx < 2 ∨ 5 < col_idx)
    (hguard : ¬(res = 0 ∨ ratTrunc (1 + (xmax - xmin) / res) ≤ 0 ∨
      ratTrunc (1 + (ymax - ymin) / res) ≤ 0))
    (hsel : (selectTiles xmin xmax ymin ymax e0 u0 ts).sel ≠ []) :
    mainModel col_idx res xmin xmax ymin ymax (some ts) e0 u0
      = RunResult.badChannel := by
  obtain ⟨p, rest, hps⟩ := List.exists_cons_of_ne_nil hsel
  have herr := add_ply_points_badChannel xmin xmax ymin ymax col_idx hcol
  simp only [mainModel]
  rw [if_neg hguard, hps]
  simp only [List.foldlM, herr]
  rfl

theorem claim_C8_witness :
    (7 < 2 ∨ 5 < (7 : ℤ)) ∧
      mainModel 7 1 0 10 0 10 (some [exampleTile]) ⟨0, 0, 0, 0⟩ none
        = RunResult.badChannel := by
  refine ⟨by norm_num, ?_⟩
  apply claim_C8_amended_badChannel_needs_selected_file 7 1 0 10 0 10
    [exampleTile] ⟨0, 0, 0, 0⟩ none (by norm_num)
  · intro h
    rcases h with h | h | h
    · norm_num at h
    · rw [ratTrunc_nonneg_eq _ 11 (by norm_num) (by norm_num) (by norm_num)] at h
      norm_num at h
    · rw [ratTrunc_nonneg_eq _ 11 (by norm_num) (by norm_num) (by norm_num)] at h
      norm_num at h
  · rw [selectTiles, List.foldl_cons, List.foldl_nil, exampleTile,
      selectStep_selected 0 10 0 10 ⟨⟨0, 0, 0, 0⟩, none, []⟩ [0, 10, 0, 10]
        examplePly (by norm_num [scanExtrema])]
    simp

/-- A run over two selected one-property tiles whose (empty) ply files
declare zones `z1` and `z2`: the run completes with exit 0 and the zone
handed to `set_geotif_header` is `z2`, the one parsed from the last selected
file, because each header parse during selection overwrites the shared `utm`
buffer. -/
theorem twoZoneRun_eval (z1 z2 : String) :
    mainModel 2 1 0 1 0 1
        (some [⟨some [0, 1, 0, 1], some (plyWithZone z1)⟩,
          ⟨some [0, 1, 0, 1], some (plyWithZone z2)⟩]) ⟨0, 0, 0, 0⟩ none
      = RunResult.success [none, none, none, none] 2 2 (some z2) := by
  have hsel : selectTiles 0 1 0 1 ⟨0, 0, 0, 0⟩ none
      [⟨some [0, 1, 0, 1], some (plyWithZone z1)⟩,
        ⟨some [0, 1, 0, 1], some (plyWithZone z2)⟩]
      = ⟨⟨0, 1, 0, 1⟩, some z2, [plyWithZone z1, plyWithZone z2]⟩ := by
    rw [selectTiles, List.foldl_cons,
      selectStep_selected 0 1 0 1 ⟨⟨0, 0, 0, 0⟩, none, []⟩ [0, 1, 0, 1]
        (plyWithZone z1) (by norm_num [scanExtrema])]
    rw [List.foldl_cons,
      selectStep_selected 0 1 0 1 _ [0, 1, 0, 1]
        (plyWithZone z2) (by norm_num [scanExtrema])]
    rw [List.foldl_nil]
    norm_num [scanExtrema, plyWithZone, header_get_record_length_and_utm_zone,
      parseHeaderLoop]
  have hw : ratTrunc (1 + ((1 : ℚ) - 0) / 1) = 2 :=
    ratTrunc_nonneg_eq _ 2 (by norm_num) (by norm_num) (by norm_num)
  simp only [mainModel, hsel, hw]
  rw [if_neg (by norm_num)]
  rfl

/-- C5 counterexample: two selected tiles declaring zones `31N` (first) and
`32N` (second).  The claim says the first file's zone becomes canonical and
is handed to the metadata writer; the code hands the zone read from the
last selected file, `32N`, to `set_geotif_header`. -/
theorem claim_C5_counterexample :
    mainModel 2 1 0 1 0 1
        (some [⟨some [0, 1, 0, 1], some (plyWithZone "31N")⟩,
          ⟨some [0, 1, 0, 1], some (plyWithZone "32N")⟩]) ⟨0, 0, 0, 0⟩ none
      = RunResult.success [none, none, none, none] 2 2 (some "32N") ∧
      (some "32N" : Option String) ≠ some "31N" :=
  ⟨twoZoneRun_eval "31N" "32N", by decide⟩

/-- C5 (amended): the zone detected in the *last* selected file becomes the
run's zone (each selected file's header parse overwrites the shared `utm`
buffer during selection); a file whose zone differs from that buffer only
triggers a warning during ingestion — the run completes with exit 0 — and
it is this last-file zone that is handed to the external metadata writer. -/
theorem claim_C5_amended_last_zone_wins (z1 z2 : String) (hz : z1 ≠ z2) :
    mainModel 2 1 0 1 0 1
        (some [⟨some [0, 1, 0, 1], some (plyWithZone z1)⟩,
          ⟨some [0, 1, 0, 1], some (plyWithZone z2)⟩]) ⟨0, 0, 0, 0⟩ none
      = RunResult.success [none, none, none, none] 2 2 (some z2) :=
  twoZoneRun_eval z1 z2

theorem claim_C5_witness :
    ("28N" : String) ≠ "29N" ∧
      mainModel 2 1 0 1 0 1
        (some [⟨some [0, 1, 0, 1], some (plyWithZone "28N")⟩,
          ⟨some [0, 1, 0, 1], some (plyWithZone "29N")⟩]) ⟨0, 0, 0, 0⟩ none
      = RunResult.success [none, none, none, none] 2 2 (some "29N") :=
  ⟨by decide, claim_C5_amended_last_zone_wins "28N" "29N" (by decide)⟩

/-- Evaluation scheme for a run that completes: plug in the selection
result, the grid dimensions, and the ingestion result. -/
theorem mainModel_success_eval (col_idx : ℤ) (res xmin xmax ymin ymax : ℚ)
    (ts : List Tile) (e0 : Extrema) (u0 : Option String) (st : SelState)
    (w h : ℤ) (W H : ℕ) (x : images)
    (hsel : selectTiles xmin xmax ymin ymax e0 u0 ts = st)
    (hw : ratTrunc (1 + (xmax - xmin) / res) = w)
    (hh : ratTrunc (1 + (ymax - ymin) / res) = h)
    (hguard : ¬(res = 0 ∨ w ≤ 0 ∨ h ≤ 0))
    (hW : w.toNat = W) (hH : h.toNat = H)
    (hing : st.sel.foldlM
        (fun g p => add_ply_points_to_images xmin xmax ymin ymax col_idx g p)
        ⟨List.replicate (W * H) 0, List.replicate (W * H) 0, W, H⟩
      = Except.ok x) :
    mainModel col_idx res xmin xmax ymin ymax (some ts) e0 u0
      = RunResult.success (finalizeRaster x) x.w x.h st.utm := by
  simp only [mainModel, hsel, hw, hh, hW, hH]
  rw [if_neg hguard, hing]

/-- Evaluation scheme for ingesting one ASCII file on the height channel. -/
theorem add_ply_eval_ascii (xmin xmax ymin ymax : ℚ) (x : images)
    (p : PlyData) (props : List Bool) (u : Option String)
    (recs : List (List ℚ))
    (hhr : header_get_record_length_and_utm_zone p.header none
      = ⟨props, false, u⟩)
    (hrecs : asciiRecords props.length p.stream = recs) :
    add_ply_points_to_images xmin xmax ymin ymax 2 x p
      = Except.ok
          (recs.foldl (fun g d => processRecord xmin xmax ymin ymax 2 g d) x) := by
  simp only [add_ply_points_to_images, hhr]
  rw [if_neg (by norm_num)]
  simp [hrecs]

/-- C7 counterexample: a single tile whose sidecar file exists but holds no
parseable float (malformed).  The claim says such a tile is skipped, so the
raster would reflect no tile at all (all NaN); in fact `main` never checks
the `fscanf` result, the leftover extent values select the tile, and its
point lands in the raster: the run succeeds and cell `(col 2, row 8)` holds
the point's height 5. -/
theorem claim_C7_counterexample :
    (mainModel 2 1 0 10 0 10 (some [malformedSidecarTile])
        ⟨0, 0, 0, 0⟩ none).isSuccess = true ∧
      (mainModel 2 1 0 10 0 10 (some [malformedSidecarTile])
        ⟨0, 0, 0, 0⟩ none).cell (11 * 8 + 2) = some 5 := by
  have hsel : selectTiles 0 10 0 10 ⟨0, 0, 0, 0⟩ none [malformedSidecarTile]
      = ⟨⟨0, 0, 0, 0⟩, none,
          [⟨[.property true, .property true, .property true, .endHeader],
            [5 / 2, 5 / 2, 5]⟩]⟩ := by
    rw [selectTiles, List.foldl_cons, malformedSidecarTile,
      selectStep_selected 0 10 0 10 ⟨⟨0, 0, 0, 0⟩, none, []⟩ []
        _ (by norm_num [scanExtrema])]
    rw [List.foldl_nil]
    norm_num [scanExtrema, header_get_record_length_and_utm_zone, parseHeaderLoop]
  have h1 : rescale_float_to_int (([(5 : ℚ) / 2, 5 / 2, 5]).getD 0 0) 0 10
      (((⟨List.replicate (11 * 11) 0, List.replicate (11 * 11) 0, 11, 11⟩ :
        images).w : ℤ)) = (2, true) := by
    have hv : (([(5 : ℚ) / 2, 5 / 2, 5]).getD 0 0) = 5 / 2 := rfl
    rw [hv, rescale_eval _ _ _ _ 2 (ratTrunc_nonneg_eq _ 2 (by norm_num)
      (by norm_num) (by norm_num))]
    rfl
  have h2 : rescale_float_to_int (-(([(5 : ℚ) / 2, 5 / 2, 5]).getD 1 0)) (-10) (-0)
      (((⟨List.replicate (11 * 11) 0, List.replicate (11 * 11) 0, 11, 11⟩ :
        images).h : ℤ)) = (8, true) := by
    have hv : (([(5 : ℚ) / 2, 5 / 2, 5]).getD 1 0) = 5 / 2 := rfl
    rw [hv, rescale_eval _ _ _ _ 8 (ratTrunc_nonneg_eq _ 8 (by norm_num)
      (by norm_num) (by norm_num))]
    rfl
  have hing : List.foldlM
      (fun g p => add_ply_points_to_images 0 10 0 10 2 g p)
      (⟨List.replicate (11 * 11) 0, List.replicate (11 * 11) 0, 11, 11⟩ : images)
      [⟨[.property true, .property true, .property true, .endHeader],
        [5 / 2, 5 / 2, 5]⟩]
      = Except.ok (add_height_to_images
          ⟨List.replicate (11 * 11) 0, List.replicate (11 * 11) 0, 11, 11⟩
          2 8 5) := by
    simp only [List.foldlM]
    rw [add_ply_eval_ascii 0 10 0 10
      (⟨List.replicate (11 * 11) 0, List.replicate (11 * 11) 0, 11, 11⟩ : images)
      ⟨[.property true, .property true, .property true, .endHeader],
        [5 / 2, 5 / 2, 5]⟩ [true, true, true] none
      [[5 / 2, 5 / 2, 5]] rfl rfl]
    rw [List.foldl_cons, List.foldl_nil,
      processRecord_eval_height 0 10 0 10 _ _ 2 8 h1 h2]
    rfl
  have hrun := mainModel_success_eval 2 1 0 10 0 10 [malformedSidecarTile]
    ⟨0, 0, 0, 0⟩ none _ 11 11 11 11 _ hsel
    (ratTrunc_nonneg_eq _ 11 (by norm_num) (by norm_num) (by norm_num))
    (ratTrunc_nonneg_eq _ 11 (by norm_num) (by norm_num) (by norm_num))
    (by norm_num) rfl rfl hing
  rw [hrun]
  refine ⟨rfl, ?_⟩
  have hlen : (finalizeRaster (add_height_to_images
      ⟨List.replicate (11 * 11) 0, List.replicate (11 * 11) 0, 11, 11⟩
      2 8 5)).length = 11 * 11 := by
    rw [finalizeRaster_length]
    rfl
  have hklt : (11 * 8 + 2 : ℕ) < 11 * 11 := by norm_num
  show (finalizeRaster (add_height_to_images
      ⟨List.replicate (11 * 11) 0, List.replicate (11 * 11) 0, 11, 11⟩
      2 8 5)).getD (11 * 8 + 2) none = some 5
  rw [List.getD_eq_getElem _ _ (by rw [hlen]; exact hklt),
    finalizeRaster_getElem _ _ (by rw [hlen]; exact hklt)]
  have hrep : ((⟨List.replicate (11 * 11) 0, List.replicate (11 * 11) 0, 11, 11⟩ :
      images).cnt).getD (11 * 8 + 2) 0 = 0 :=
    getD_replicate (11 * 11) (11 * 8 + 2) 0 0 (by norm_num)
  obtain ⟨hc, ha⟩ := add_height_getD_self
    ⟨List.replicate (11 * 11) 0, List.replicate (11 * 11) 0, 11, 11⟩ 2 8 5
    (by norm_num) (by norm_num)
  rw [show (⟨List.replicate (11 * 11) 0, List.replicate (11 * 11) 0, 11, 11⟩ :
      images).w * 8 + 2 = 11 * 8 + 2 from rfl, hrep] at hc
  rw [show (⟨List.replicate (11 * 11) 0, List.replicate (11 * 11) 0, 11, 11⟩ :
      images).w * 8 + 2 = 11 * 8 + 2 from rfl, hrep] at ha
  rw [if_neg (by rw [hc]; norm_num), ha]
  norm_num

/-- C7 (amended): a tile whose extent sidecar is *missing* (cannot be
opened) is skipped after a warning and the run continues: removing such a
tile from the tile list anywhere does not change the run's outcome, so the
raster reflects only the other tiles.  (A present-but-malformed sidecar is
not detected; see the counterexample.) -/
theorem claim_C7_amended_missing_sidecar_skipped (col_idx : ℤ)
    (res xmin xmax ymin ymax : ℚ) (ts1 ts2 : List Tile) (p : Option PlyData)
    (e0 : Extrema) (u0 : Option String) :
    mainModel col_idx res xmin xmax ymin ymax
        (some (ts1 ++ ⟨none, p⟩ :: ts2)) e0 u0
      = mainModel col_idx res xmin xmax ymin ymax (some (ts1 ++ ts2)) e0 u0 := by
  have hsel : selectTiles xmin xmax ymin ymax e0 u0 (ts1 ++ ⟨none, p⟩ :: ts2)
      = selectTiles xmin xmax ymin ymax e0 u0 (ts1 ++ ts2) := by
    simp only [selectTiles, List.foldl_append, List.foldl_cons,
      selectStep_missing_sidecar]
  simp only [mainModel, hsel]

/-- Evaluation of the spec's example scenario: bounding box `(0,10,0,10)`,
resolution 1, channel 2, one selected tile holding the two points
`(2.5, 2.5, 5.0)` and `(2.6, 2.6, 7.0)`: an 11-by-11 grid whose only hit
cell is flat index `11*8 + 2` (column 2, row 8) with mean 6. -/
theorem exampleRun_eval :
    mainModel 2 1 0 10 0 10 (some [exampleTile]) ⟨0, 0, 0, 0⟩ none
      = RunResult.success
          ((List.range (11 * 11)).map fun k =>
            if k = 11 * 8 + 2 then some 6 else none) 11 11 none := by
  have hsel : selectTiles 0 10 0 10 ⟨0, 0, 0, 0⟩ none [exampleTile]
      = ⟨⟨0, 10, 0, 10⟩, none, [examplePly]⟩ := by
    rw [selectTiles, List.foldl_cons, exampleTile,
      selectStep_selected 0 10 0 10 ⟨⟨0, 0, 0, 0⟩, none, []⟩ [0, 10, 0, 10]
        examplePly (by norm_num [scanExtrema])]
    rw [List.foldl_nil]
    norm_num [scanExtrema, examplePly, header_get_record_length_and_utm_zone,
      parseHeaderLoop]
  have h1 : rescale_float_to_int (([(5 : ℚ) / 2, 5 / 2, 5]).getD 0 0) 0 10
      (((⟨List.replicate (11 * 11) 0, List.replicate (11 * 11) 0, 11, 11⟩ : images).w : ℤ)) = (2, true) := by
    rw [show (([(5 : ℚ) / 2, 5 / 2, 5]).getD 0 0) = 5 / 2 from rfl,
      rescale_eval _ _ _ _ 2 (ratTrunc_nonneg_eq _ 2 (by norm_num)
        (by norm_num) (by norm_num))]
    rfl
  have h2 : rescale_float_to_int (-(([(5 : ℚ) / 2, 5 / 2, 5]).getD 1 0)) (-10) (-0)
      (((⟨List.replicate (11 * 11) 0, List.replicate (11 * 11) 0, 11, 11⟩ : images).h : ℤ)) = (8, true) := by
    rw [show (([(5 : ℚ) / 2, 5 / 2, 5]).getD 1 0) = 5 / 2 from rfl,
      rescale_eval _ _ _ _ 8 (ratTrunc_nonneg_eq _ 8 (by norm_num)
        (by norm_num) (by norm_num))]
    rfl
  have h3 : rescale_float_to_int (([(13 : ℚ) / 5, 13 / 5, 7]).getD 0 0) 0 10
      (((add_height_to_images ⟨List.replicate (11 * 11) 0, List.replicate (11 * 11) 0, 11, 11⟩ 2 8 5).w : ℤ)) = (2, true) := by
    rw [show ((add_height_to_images ⟨List.replicate (11 * 11) 0, List.replicate (11 * 11) 0, 11, 11⟩ 2 8 5).w) = 11 from rfl,
      show (([(13 : ℚ) / 5, 13 / 5, 7]).getD 0 0) = 13 / 5 from rfl,
      rescale_eval _ _ _ _ 2 (ratTrunc_nonneg_eq _ 2 (by norm_num)
        (by norm_num) (by norm_num))]
    rfl
  have h4 : rescale_float_to_int (-(([(13 : ℚ) / 5, 13 / 5, 7]).getD 1 0)) (-10) (-0)
      (((add_height_to_images ⟨List.replicate (11 * 11) 0, List.replicate (11 * 11) 0, 11, 11⟩ 2 8 5).h : ℤ)) = (8, true) := by
    rw [show ((add_height_to_images ⟨List.replicate (11 * 11) 0, List.replicate (11 * 11) 0, 11, 11⟩ 2 8 5).h) = 11 from rfl,
      show (([(13 : ℚ) / 5, 13 / 5, 7]).getD 1 0) = 13 / 5 from rfl,
      rescale_eval _ _ _ _ 8 (ratTrunc_nonneg_eq _ 8 (by norm_num)
        (by norm_num) (by norm_num))]
    rfl
  have hing : List.foldlM
      (fun g p => add_ply_points_to_images 0 10 0 10 2 g p)
      (⟨List.replicate (11 * 11) 0, List.replicate (11 * 11) 0, 11, 11⟩ : images) [examplePly]
      = Except.ok (add_height_to_images (add_height_to_images ⟨List.replicate (11 * 11) 0, List.replicate (11 * 11) 0, 11, 11⟩ 2 8 5) 2 8 7) := by
    simp only [List.foldlM]
    rw [add_ply_eval_ascii 0 10 0 10 (⟨List.replicate (11 * 11) 0, List.replicate (11 * 11) 0, 11, 11⟩ : images) examplePly
      [true, true, true] none [[5 / 2, 5 / 2, 5], [13 / 5, 13 / 5, 7]] rfl rfl]
    rw [List.foldl_cons,
      processRecord_eval_height 0 10 0 10 _ _ 2 8 h1 h2]
    rw [show add_height_to_images (⟨List.replicate (11 * 11) 0, List.replicate (11 * 11) 0, 11, 11⟩ : images)
        (Int.toNat 2) (Int.toNat 8) (([(5 : ℚ) / 2, 5 / 2, 5]).getD 2 0)
      = add_height_to_images (⟨List.replicate (11 * 11) 0, List.replicate (11 * 11) 0, 11, 11⟩ : images) 2 8 5 from rfl]
    rw [List.foldl_cons,
      processRecord_eval_height 0 10 0 10 _ _ 2 8 h3 h4]
    rw [List.foldl_nil]
    rfl
  have hrun := mainModel_success_eval 2 1 0 10 0 10 [exampleTile]
    ⟨0, 0, 0, 0⟩ none _ 11 11 11 11 _ hsel
    (ratTrunc_nonneg_eq _ 11 (by norm_num) (by norm_num) (by norm_num))
    (ratTrunc_nonneg_eq _ 11 (by norm_num) (by norm_num) (by norm_num))
    (by norm_num) rfl rfl hing
  rw [hrun]
  have hrep : ((⟨List.replicate (11 * 11) 0, List.replicate (11 * 11) 0, 11, 11⟩ : images).cnt).getD (11 * 8 + 2) 0 = 0 :=
    getD_replicate (11 * 11) (11 * 8 + 2) 0 0 (by norm_num)
  obtain ⟨hc1, ha1⟩ := add_height_getD_self
    (⟨List.replicate (11 * 11) 0, List.replicate (11 * 11) 0, 11, 11⟩ : images) 2 8 5 (by norm_num) (by norm_num)
  rw [show (⟨List.replicate (11 * 11) 0, List.replicate (11 * 11) 0, 11, 11⟩ : images).w * 8 + 2 = 11 * 8 + 2 from rfl, hrep] at hc1 ha1
  obtain ⟨hc2, ha2⟩ := add_height_getD_self (add_height_to_images ⟨List.replicate (11 * 11) 0, List.replicate (11 * 11) 0, 11, 11⟩ 2 8 5) 2 8 7
    (by rw [show ((add_height_to_images ⟨List.replicate (11 * 11) 0, List.replicate (11 * 11) 0, 11, 11⟩ 2 8 5).w) = 11 from rfl, add_height_cnt_len]; norm_num)
    (by rw [show ((add_height_to_images ⟨List.replicate (11 * 11) 0, List.replicate (11 * 11) 0, 11, 11⟩ 2 8 5).w) = 11 from rfl, add_height_avg_len]; norm_num)
  rw [show ((add_height_to_images ⟨List.replicate (11 * 11) 0, List.replicate (11 * 11) 0, 11, 11⟩ 2 8 5).w) * 8 + 2 = 11 * 8 + 2 from rfl, hc1] at hc2
  rw [show ((add_height_to_images ⟨List.replicate (11 * 11) 0, List.replicate (11 * 11) 0, 11, 11⟩ 2 8 5).w) * 8 + 2 = 11 * 8 + 2 from rfl, hc1, ha1] at ha2
  have hraster : finalizeRaster (add_height_to_images (add_height_to_images ⟨List.replicate (11 * 11) 0, List.replicate (11 * 11) 0, 11, 11⟩ 2 8 5) 2 8 7)
      = (List.range (11 * 11)).map fun k =>
          if k = 11 * 8 + 2 then some 6 else none := by
    apply List.ext_getElem
    · rw [finalizeRaster_length, List.length_map, List.length_range]
      rfl
    · intro i hl1 hl2
      have hi : i < 11 * 11 := by
        rw [finalizeRaster_length] at hl1
        exact hl1
      rw [finalizeRaster_getElem _ _ hl1, List.getElem_map, List.getElem_range]
      by_cases hk : i = 11 * 8 + 2
      · subst hk
        rw [if_neg (by rw [hc2]; norm_num), ha2, if_pos rfl]
        norm_num
      · have hfr := (accumulateSamples_getD_ne [5, 7] (⟨List.replicate (11 * 11) 0, List.replicate (11 * 11) 0, 11, 11⟩ : images) 2 8 i
          (by rw [show (⟨List.replicate (11 * 11) 0, List.replicate (11 * 11) 0, 11, 11⟩ : images).w * 8 + 2 = 11 * 8 + 2 from rfl]
              exact hk)).1
        rw [if_pos ?_, if_neg hk]
        rw [show (add_height_to_images (add_height_to_images ⟨List.replicate (11 * 11) 0, List.replicate (11 * 11) 0, 11, 11⟩ 2 8 5) 2 8 7)
            = accumulateSamples (⟨List.replicate (11 * 11) 0, List.replicate (11 * 11) 0, 11, 11⟩ : images) 2 8 [5, 7] from rfl, hfr]
        exact getD_replicate (11 * 11) i 0 0 hi
  rw [hraster]
  rfl

/-- C3 counterexample: in the example scenario the claim locates the mean at
column 2, row 7 (flat index `11*7 + 2`); the code's flipped-row computation
`trunc(11 * (10 - 2.5) / 10) = 8` puts both points in row 8, so the cell the
claim names is the NaN no-data sentinel, not 6.0. -/
theorem claim_C3_counterexample :
    (mainModel 2 1 0 10 0 10 (some [exampleTile]) ⟨0, 0, 0, 0⟩ none).isSuccess
        = true ∧
      (mainModel 2 1 0 10 0 10 (some [exampleTile]) ⟨0, 0, 0, 0⟩ none).cell
        (11 * 7 + 2) = none := by
  rw [exampleRun_eval]
  refine ⟨rfl, ?_⟩
  show ((List.range (11 * 11)).map fun k =>
      if k = 11 * 8 + 2 then some (6 : ℚ) else none).getD (11 * 7 + 2) none = none
  rw [List.getD_eq_getElem _ _ (by simp), List.getElem_map, List.getElem_range,
    if_neg (by norm_num)]

/-- C3 (amended): in the example scenario the output raster is the 11-by-11
grid whose cell at column 2, row 8 (flat index `11*8 + 2`) equals 6.0 while
every other cell is the NaN no-data sentinel; the run's zone buffer stays
unwritten. -/
theorem claim_C3_amended_row8 :
    mainModel 2 1 0 10 0 10 (some [exampleTile]) ⟨0, 0, 0, 0⟩ none
      = RunResult.success
          ((List.range (11 * 11)).map fun k =>
            if k = 11 * 8 + 2 then some 6 else none) 11 11 none :=
  exampleRun_eval

theorem readBinProps_rec (props : List Bool) (s : List ℚ)
    (h : ∀ b ∈ props, b = true) :
    (readBinProps props s).1 = ((min props.length s.length : ℕ) : ℤ) := by
  induction props generalizing s with
  | nil => simp [readBinProps]
  | cons b ps ih =>
    have hb : b = true := h b (List.mem_cons_self b ps)
    have hr : ∀ c ∈ ps, c = true := fun c hc => h c (List.mem_cons_of_mem b hc)
    subst hb
    cases s with
    | nil =>
      simp only [readBinProps, ih [] hr]
      simp
    | cons v s' =>
      simp only [readBinProps, ih s' hr, List.length_cons, Nat.succ_min_succ]
      push_cast
      ring

theorem readBinProps_known (props : List Bool) (s : List ℚ)
    (h : ∀ b ∈ props, b = true) (hlen : props.length ≤ s.length) :
    readBinProps props s
      = ((props.length : ℤ), s.take props.length, s.drop props.length) := by
  induction props generalizing s with
  | nil => simp [readBinProps]
  | cons b ps ih =>
    have hb : b = true := h b (List.mem_cons_self b ps)
    have hr : ∀ c ∈ ps, c = true := fun c hc => h c (List.mem_cons_of_mem b hc)
    subst hb
    cases s with
    | nil => simp at hlen
    | cons v s' =>
      have hlen' : ps.length ≤ s'.length := by
        simp at hlen
        omega
      simp only [readBinProps, ih s' hr hlen']
      push_cast
      simp

theorem readAsciiProps_eof (n : ℕ) (s : List ℚ) :
    readAsciiProps n true s = (0, [], true, s) := by
  cases n <;> rfl

theorem readAsciiProps_long (n : ℕ) (s : List ℚ) (hlen : n ≤ s.length) :
    readAsciiProps n false s = ((n : ℤ), s.take n, false, s.drop n) := by
  induction n generalizing s with
  | zero => simp [readAsciiProps]
  | succ k ih =>
    cases s with
    | nil => simp at hlen
    | cons v s' =>
      have hlen' : k ≤ s'.length := by
        simp at hlen
        omega
      simp only [readAsciiProps, ih s' hlen']
      push_cast
      simp

theorem readAsciiProps_short (n : ℕ) (s : List ℚ) (hlen : s.length < n) :
    (readAsciiProps n false s).1 = (s.length : ℤ) - 1 := by
  induction n generalizing s with
  | zero => omega
  | succ k ih =>
    cases s with
    | nil =>
      simp only [readAsciiProps, readAsciiProps_eof]
      rfl
    | cons v s' =>
      have hlen' : s'.length < k := by
        simp at hlen
        omega
      simp only [readAsciiProps, ih s' hlen']
      simp only [List.length_cons]
      push_cast
      ring

/-- The two record loops of `get_record` accept exactly the same records
when every declared property has a recognized type: both take records of
`n = props.length` scalars while at least `n` remain and stop at the first
incomplete record. -/
theorem recordLoops_eq (props : List Bool) (h : ∀ b ∈ props, b = true) :
    ∀ (fuel : ℕ) (s : List ℚ),
      binRecordLoop props fuel s = asciiRecordLoop props.length fuel false s := by
  intro fuel
  induction fuel with
  | zero => intro s; rfl
  | succ f ih =>
    intro s
    by_cases hle : props.length ≤ s.length
    · simp only [binRecordLoop, asciiRecordLoop,
        readBinProps_known props s h hle, readAsciiProps_long props.length s hle]
      rw [ih (s.drop props.length)]
    · have hlt : s.length < props.length := by omega
      simp only [binRecordLoop, asciiRecordLoop]
      rw [if_neg (by
          rw [readBinProps_rec props s h, Nat.min_eq_right (Nat.le_of_lt hlt)]
          omega),
        if_neg (by
          rw [readAsciiProps_short props.length s hlt]
          omega)]

theorem binRecords_eq_asciiRecords (props : List Bool) (s : List ℚ)
    (h : ∀ b ∈ props, b = true) :
    binRecords props s = asciiRecords props.length s :=
  recordLoops_eq props h (s.length + 1) s

theorem parseHeaderLoop_no_format (lines : List HeaderLine)
    (h : ∀ l ∈ lines, l ≠ HeaderLine.formatBinary ∧ l ≠ HeaderLine.formatAscii)
    (b : Bool) (props : List Bool) (utm : Option String) :
    parseHeaderLoop lines b props utm
      = ⟨(parseHeaderLoop lines false props utm).props, b,
          (parseHeaderLoop lines false props utm).utm⟩ := by
  induction lines generalizing props utm with
  | nil => rfl
  | cons l rest ih =>
    have hl := h l (List.mem_cons_self l rest)
    have hr : ∀ x ∈ rest, x ≠ HeaderLine.formatBinary ∧ x ≠ HeaderLine.formatAscii :=
      fun x hx => h x (List.mem_cons_of_mem l hx)
    cases l with
    | formatBinary => exact absurd rfl hl.1
    | formatAscii => exact absurd rfl hl.2
    | property known => exact ih hr (props ++ [known]) utm
    | projection z => exact ih hr props (some z)
    | endHeader => rfl
    | other => exact ih hr props utm

/-- Ingesting a binary file and an ASCII file with the same format-free
header tail (so the same property cardinality) and the same decoded scalar
stream updates the grid identically, provided every property type is
recognized. -/
theorem add_ply_bin_ascii_eq (xmin xmax ymin ymax : ℚ) (col_idx : ℤ)
    (hdr : List HeaderLine) (s : List ℚ)
    (hfmt : ∀ l ∈ hdr, l ≠ HeaderLine.formatBinary ∧ l ≠ HeaderLine.formatAscii)
    (hknown : ∀ b ∈ (header_get_record_length_and_utm_zone hdr none).props,
      b = true) (x : images) :
    add_ply_points_to_images xmin xmax ymin ymax col_idx x
        ⟨HeaderLine.formatBinary :: hdr, s⟩
      = add_ply_points_to_images xmin xmax ymin ymax col_idx x
        ⟨HeaderLine.formatAscii :: hdr, s⟩ := by
  have hbin : header_get_record_length_and_utm_zone
      (HeaderLine.formatBinary :: hdr) none
      = ⟨(header_get_record_length_and_utm_zone hdr none).props, true,
          (header_get_record_length_and_utm_zone hdr none).utm⟩ := by
    show parseHeaderLoop hdr true [] none = _
    exact parseHeaderLoop_no_format hdr hfmt true [] none
  have hasc : header_get_record_length_and_utm_zone
      (HeaderLine.formatAscii :: hdr) none
      = ⟨(header_get_record_length_and_utm_zone hdr none).props, false,
          (header_get_record_length_and_utm_zone hdr none).utm⟩ := by
    show parseHeaderLoop hdr false [] none = _
    exact parseHeaderLoop_no_format hdr hfmt false [] none
  simp only [add_ply_points_to_images, hbin, hasc]
  by_cases hcol : col_idx < 2 ∨ 5 < col_idx
  · rw [if_pos hcol, if_pos hcol]
  · rw [if_neg hcol, if_neg hcol]
    rw [binRecords_eq_asciiRecords
      (header_get_record_length_and_utm_zone hdr none).props s hknown]
    simp

theorem selectStep_not_selected (xmin xmax ymin ymax : ℚ) (s : SelState)
    (xs : List ℚ) (p : Option PlyData)
    (hcond : ¬((scanExtrema s.extrema xs).exmin ≤ xmax ∧
      (scanExtrema s.extrema xs).exmax ≥ xmin ∧
      (scanExtrema s.extrema xs).eymin ≤ ymax ∧
      (scanExtrema s.extrema xs).eymax ≥ ymin)) :
    selectStep xmin xmax ymin ymax s ⟨some xs, p⟩
      = { s with extrema := scanExtrema s.extrema xs } := by
  simp only [selectStep]
  rw [if_neg hcond]

/-- C9: a binary-little-endian file and an ASCII file carrying the same
format-free header tail (hence identical property cardinality, all of
recognized type) and the same decoded values produce identical output
rasters when ingested in the same run configuration. -/
theorem claim_C9_binary_ascii_identical_rasters (col_idx : ℤ)
    (res xmin xmax ymin ymax : ℚ) (sc : List ℚ) (hdr : List HeaderLine)
    (s : List ℚ) (e0 : Extrema) (u0 : Option String)
    (hfmt : ∀ l ∈ hdr, l ≠ HeaderLine.formatBinary ∧ l ≠ HeaderLine.formatAscii)
    (hknown : ∀ b ∈ (header_get_record_length_and_utm_zone hdr none).props,
      b = true) :
    mainModel col_idx res xmin xmax ymin ymax
        (some [⟨some sc, some ⟨HeaderLine.formatBinary :: hdr, s⟩⟩]) e0 u0
      = mainModel col_idx res xmin xmax ymin ymax
        (some [⟨some sc, some ⟨HeaderLine.formatAscii :: hdr, s⟩⟩]) e0 u0 := by
  have hutm : (header_get_record_length_and_utm_zone
        (HeaderLine.formatBinary :: hdr) u0).utm
      = (header_get_record_length_and_utm_zone
        (HeaderLine.formatAscii :: hdr) u0).utm := by
    show (parseHeaderLoop hdr true [] u0).utm = (parseHeaderLoop hdr false [] u0).utm
    rw [parseHeaderLoop_no_format hdr hfmt true [] u0]
  by_cases hcond : (scanExtrema e0 sc).exmin ≤ xmax ∧
      (scanExtrema e0 sc).exmax ≥ xmin ∧
      (scanExtrema e0 sc).eymin ≤ ymax ∧
      (scanExtrema e0 sc).eymax ≥ ymin
  · have hselb : selectTiles xmin xmax ymin ymax e0 u0
        [⟨some sc, some ⟨HeaderLine.formatBinary :: hdr, s⟩⟩]
        = ⟨scanExtrema e0 sc,
            (header_get_record_length_and_utm_zone
              (HeaderLine.formatBinary :: hdr) u0).utm,
            [⟨HeaderLine.formatBinary :: hdr, s⟩]⟩ := by
      rw [selectTiles, List.foldl_cons,
        selectStep_selected xmin xmax ymin ymax ⟨e0, u0, []⟩ sc _ hcond,
        List.foldl_nil]
      rfl
    have hsela : selectTiles xmin xmax ymin ymax e0 u0
        [⟨some sc, some ⟨HeaderLine.formatAscii :: hdr, s⟩⟩]
        = ⟨scanExtrema e0 sc,
            (header_get_record_length_and_utm_zone
              (HeaderLine.formatAscii :: hdr) u0).utm,
            [⟨HeaderLine.formatAscii :: hdr, s⟩]⟩ := by
      rw [selectTiles, List.foldl_cons,
        selectStep_selected xmin xmax ymin ymax ⟨e0, u0, []⟩ sc _ hcond,
        List.foldl_nil]
      rfl
    simp only [mainModel, hselb, hsela]
    by_cases hg : res = 0 ∨ ratTrunc (1 + (xmax - xmin) / res) ≤ 0 ∨
        ratTrunc (1 + (ymax - ymin) / res) ≤ 0
    · rw [if_pos hg, if_pos hg]
    · rw [if_neg hg, if_neg hg]
      simp only [List.foldlM]
      rw [add_ply_bin_ascii_eq xmin xmax ymin ymax col_idx hdr s hfmt hknown]
      rw [hutm]
  · have hselb : selectTiles xmin xmax ymin ymax e0 u0
        [⟨some sc, some ⟨HeaderLine.formatBinary :: hdr, s⟩⟩]
        = ⟨scanExtrema e0 sc, u0, []⟩ := by
      rw [selectTiles, List.foldl_cons,
        selectStep_not_selected xmin xmax ymin ymax ⟨e0, u0, []⟩ sc _ hcond,
        List.foldl_nil]
    have hsela : selectTiles xmin xmax ymin ymax e0 u0
        [⟨some sc, some ⟨HeaderLine.formatAscii :: hdr, s⟩⟩]
        = ⟨scanExtrema e0 sc, u0, []⟩ := by
      rw [selectTiles, List.foldl_cons,
        selectStep_not_selected xmin xmax ymin ymax ⟨e0, u0, []⟩ sc _ hcond,
        List.foldl_nil]
    simp only [mainModel, hselb, hsela]

theorem claim_C9_witness :
    mainModel 2 1 0 10 0 10
        (some [⟨some [0, 10, 0, 10], some ⟨HeaderLine.formatBinary ::
          [HeaderLine.property true, HeaderLine.property true,
            HeaderLine.property true, HeaderLine.endHeader],
          [1, 2, 3, 4, 5, 6, 7]⟩⟩]) ⟨0, 0, 0, 0⟩ none
      = mainModel 2 1 0 10 0 10
        (some [⟨some [0, 10, 0, 10], some ⟨HeaderLine.formatAscii ::
          [HeaderLine.property true, HeaderLine.property true,
            HeaderLine.property true, HeaderLine.endHeader],
          [1, 2, 3, 4, 5, 6, 7]⟩⟩]) ⟨0, 0, 0, 0⟩ none :=
  claim_C9_binary_ascii_identical_rasters 2 1 0 10 0 10 [0, 10, 0, 10]
    [HeaderLine.property true, HeaderLine.property true,
      HeaderLine.property true, HeaderLine.endHeader]
    [1, 2, 3, 4, 5, 6, 7] ⟨0, 0, 0, 0⟩ none (by decide) (by decide)

end PlyToDsm
